import Mathlib

/-!
Verification development for the offline map tile downloader (`main.go`).

The Go source is shallowly embedded: pure Go functions become Lean
functions, the process-wide session variables (`downloading`,
`downloadCancel`) become an explicit `ServerState` threaded through the
handlers, and the effectful parts of a tile fetch (HTTP outcome per
attempt, cache-existence check, directory creation, file write, image
conversion, random subdomain draws, context cancellation) become fields of
an explicit environment record so that `downloadTile` is a pure function
of tile, parameters and environment.  Geometry over `float64` is embedded
over the real numbers `ℝ`.
-/

namespace MapTiles

/-- Tile: integer triple, `type Tile struct { X, Y, Z uint32 }`.
Go's `uint32` values are modelled as `ℕ` (all values produced in the
program are small and nonnegative; wrap-around is never exercised). -/
structure Tile where
  x : ℕ
  y : ℕ
  z : ℕ
deriving DecidableEq, Repr

/-- LatLng: geographical point, `type LatLng struct { Lat, Lng float64 }`,
embedded over `ℝ`. -/
structure LatLng where
  lat : ℝ
  lng : ℝ

/-- BoundingBox: `type BoundingBox struct { North, South, East, West float64 }`. -/
structure BoundingBox where
  north : ℝ
  south : ℝ
  east : ℝ
  west : ℝ

/-! ## Style-name sanitization (`sanitizeStyleName`)

`sanitizeStyleName` is
`nonAlphanumeric.ReplaceAllString(strings.ReplaceAll(styleName, " ", "-"), "")`
with `nonAlphanumeric = [^a-zA-Z0-9-_]+`.  Strings are modelled as lists
of characters.  `strings.ReplaceAll(s, " ", "-")` with a one-character
pattern is exactly a character map, and replacing every maximal run of
characters matching `[^a-zA-Z0-9-_]` by the empty string is exactly a
filter keeping the characters of the class. -/

/-- Character class `[a-zA-Z0-9-_]` of the `nonAlphanumeric` regular
expression (negated). -/
def allowedChar (c : Char) : Bool :=
  ('a' ≤ c && c ≤ 'z') || ('A' ≤ c && c ≤ 'Z') || ('0' ≤ c && c ≤ '9') ||
    c == '-' || c == '_'

/-- `sanitizeStyleName`: replace the space character by `-`, then delete
every character outside `[a-zA-Z0-9-_]`. -/
def sanitizeStyleName (styleName : List Char) : List Char :=
  (styleName.map (fun c => if c = ' ' then '-' else c)).filter allowedChar

/-- Modelled from the spec: "style names are sanitized by replacing
whitespace with a separator and stripping all characters outside
`[A-Za-z0-9-_]`" — i.e. every whitespace character (not just the space
character) becomes the separator `-` before stripping. -/
def specSanitizeStyleName (styleName : List Char) : List Char :=
  (styleName.map (fun c => if c.isWhitespace then '-' else c)).filter allowedChar

/-! ## World tiles (`getWorldTiles`) -/

/-- One zoom level of `getWorldTiles`: the two inner loops
`for x := 0; x < max; x++ { for y := 0; y < max; y++ { append } }` with
`max := 1 << z`. -/
def worldLevel (z : ℕ) : List Tile :=
  (List.range (2 ^ z)).flatMap fun x =>
    (List.range (2 ^ z)).map fun y => Tile.mk x y z

/-- `getWorldTiles`: all tiles for zoom levels `0..7`, appended in loop
order (z outer, then x, then y). -/
def getWorldTiles : List Tile :=
  (List.range 8).flatMap worldLevel

/-! ## Coordinate transforms and polygon geometry

The Go code computes over `float64`; the embedding idealizes `float64`
arithmetic as exact real arithmetic.  Comparisons on reals are classical,
so this whole part is noncomputable. -/

noncomputable section
open scoped Classical

/-- Go conversion `uint32(v)` for a `float64` `v`.  Go truncates toward
zero; for the nonnegative values relevant here truncation equals the
floor, and values in `(-1, 0]` give `0` exactly as `Int.toNat ∘ Int.floor`
does.  (Conversions whose value does not fit in `uint32` are
implementation-defined in Go.) -/
def uint32OfReal (v : ℝ) : ℕ := ⌊v⌋.toNat

/-- `latLonToTile`: spherical-Mercator tile indices,
`x = uint32(n * ((lon + 180) / 360))`,
`y = uint32(n * (1 - (log(tan(latRad)) + 1/cos(latRad)) / pi)) / 2)`
with `n = 2^zoom` and `latRad = lat * pi / 180`. -/
def latLonToTile (lat lon : ℝ) (zoom : ℕ) : ℕ × ℕ :=
  let latRad : ℝ := lat * Real.pi / 180
  let n : ℝ := 2 ^ zoom
  (uint32OfReal (n * ((lon + 180) / 360)),
   uint32OfReal (n * (1 - Real.log (Real.tan latRad + 1 / Real.cos latRad) / Real.pi) / 2))

/-- Normalized Mercator ordinate of a latitude: the fraction of the way
from the north edge of the world to the south edge,
`(1 - log(tan(latRad) + 1/cos(latRad))/pi) / 2`.  The `y` component of
`latLonToTile lat lon z` is `⌊2^z * mercFrac lat⌋.toNat`. -/
def mercFrac (lat : ℝ) : ℝ :=
  (1 - Real.log (Real.tan (lat * Real.pi / 180) + 1 / Real.cos (lat * Real.pi / 180)) / Real.pi) / 2

/-- `tileBounds`: geographic bounding box of a tile (inverse Web-Mercator
for north/south, linear in longitude for east/west). -/
def tileBounds (t : Tile) : BoundingBox :=
  let n : ℝ := 2 ^ t.z
  { north := Real.arctan (Real.sinh (Real.pi * (1 - 2 * (t.y : ℝ) / n))) * 180 / Real.pi
    south := Real.arctan (Real.sinh (Real.pi * (1 - 2 * ((t.y : ℝ) + 1) / n))) * 180 / Real.pi
    east := ((t.x : ℝ) + 1) / n * 360 - 180
    west := (t.x : ℝ) / n * 360 - 180 }

/-- `tileContains`: whether the point lies in the tile's bounding box
(inclusive on all four edges). -/
def tileContains (bounds : BoundingBox) (point : LatLng) : Bool :=
  decide (point.lat ≤ bounds.north ∧ bounds.south ≤ point.lat ∧
    bounds.west ≤ point.lng ∧ point.lng ≤ bounds.east)

/-- `orientation`: orientation of the ordered triplet `(p, q, r)`:
`0` collinear, `1` clockwise, `2` counterclockwise. -/
def orientation (p q r : LatLng) : ℕ :=
  let val := (q.lng - p.lng) * (r.lat - q.lat) - (q.lat - p.lat) * (r.lng - q.lng)
  if val = 0 then 0 else if val > 0 then 1 else 2

/-- `onSegment`: whether `q` lies within the bounding box of segment `pr`
(used only after a collinearity check). -/
def onSegment (p q r : LatLng) : Bool :=
  decide (q.lat ≤ max p.lat r.lat ∧ min p.lat r.lat ≤ q.lat ∧
    q.lng ≤ max p.lng r.lng ∧ min p.lng r.lng ≤ q.lng)

/-- `lineIntersects`: segment intersection by the orientation-triplet test
with the four collinear special cases. -/
def lineIntersects (p1 q1 p2 q2 : LatLng) : Bool :=
  let o1 := orientation p1 q1 p2
  let o2 := orientation p1 q1 q2
  let o3 := orientation p2 q2 p1
  let o4 := orientation p2 q2 q1
  decide (o1 ≠ o2 ∧ o3 ≠ o4) ||
    (decide (o1 = 0) && onSegment p1 p2 q1) ||
    (decide (o2 = 0) && onSegment p1 q2 q1) ||
    (decide (o3 = 0) && onSegment p2 p1 q2) ||
    (decide (o4 = 0) && onSegment p2 q1 q2)

/-- `polygonContains`: ray casting, even-odd rule.  The Go loop runs
`i` from `0` to `len-1` with `j` the previous index (starting at `len-1`)
and toggles `in` whenever the edge `(i, j)` straddles the point's latitude
and the crossing is to the point's east.  (Go's `&&` short-circuit around
the division is harmless here: real division is total.) -/
def polygonContains (poly : List LatLng) (point : LatLng) : Bool :=
  (List.range poly.length).foldl
    (fun acc i =>
      let pa := poly.getD i ⟨0, 0⟩
      let pb := poly.getD (if i = 0 then poly.length - 1 else i - 1) ⟨0, 0⟩
      if (decide (pa.lat > point.lat) != decide (pb.lat > point.lat)) &&
          decide (point.lng <
            (pb.lng - pa.lng) * (point.lat - pa.lat) / (pb.lat - pa.lat) + pa.lng)
      then !acc else acc)
    false

/-- `polygonIntersects`: any polygon vertex inside the tile, or any tile
corner inside the polygon, or any polygon edge intersecting any of the
four tile edges.  Go's early-return loops become `List.any`. -/
def polygonIntersects (poly : List LatLng) (bounds : BoundingBox) : Bool :=
  poly.any (fun p => tileContains bounds p) ||
  (polygonContains poly ⟨bounds.north, bounds.west⟩ ||
   polygonContains poly ⟨bounds.north, bounds.east⟩ ||
   polygonContains poly ⟨bounds.south, bounds.west⟩ ||
   polygonContains poly ⟨bounds.south, bounds.east⟩) ||
  (List.range poly.length).any (fun i =>
    let p1 := poly.getD i ⟨0, 0⟩
    let p2 := poly.getD ((i + 1) % poly.length) ⟨0, 0⟩
    lineIntersects p1 p2 ⟨bounds.north, bounds.west⟩ ⟨bounds.north, bounds.east⟩ ||
    lineIntersects p1 p2 ⟨bounds.north, bounds.east⟩ ⟨bounds.south, bounds.east⟩ ||
    lineIntersects p1 p2 ⟨bounds.south, bounds.east⟩ ⟨bounds.south, bounds.west⟩ ||
    lineIntersects p1 p2 ⟨bounds.south, bounds.west⟩ ⟨bounds.north, bounds.west⟩)

/-- Per-polygon axis-aligned bounding box of `getTilesForPolygons`:
fold starting from `minLat, minLon := 90, 180` and
`maxLat, maxLon := -90, -180`, updating with `<` / `>` comparisons
(equivalently `min` / `max`). -/
structure PolyBBox where
  minLat : ℝ
  minLon : ℝ
  maxLat : ℝ
  maxLon : ℝ

/-- Bounding-box fold over the polygon's vertices. -/
def polyBBox (poly : List LatLng) : PolyBBox :=
  poly.foldl
    (fun acc p =>
      { minLat := min acc.minLat p.lat
        minLon := min acc.minLon p.lng
        maxLat := max acc.maxLat p.lat
        maxLon := max acc.maxLon p.lng })
    ⟨90, 180, -90, -180⟩

/-- State of the selector loop: the `allTiles` slice and the key set of
the `tileMap` deduplication map.  The map's keys are inserted exactly when
a tile is appended to `allTiles`, so the key set is tracked as a list kept
in sync with the appends. -/
structure SelState where
  tiles : List Tile
  seen : List Tile

/-- Loop body of `getTilesForPolygons` for one candidate tile: skip if
already in `tileMap`; otherwise the three ordered classification tests
(tile fully inside polygon by its four corners, polygon fully inside
tile, boundary intersection), appending the tile on the first success. -/
def classifyAdd (poly : List LatLng) (t : Tile) (st : SelState) : SelState :=
  if t ∈ st.seen then st
  else
    let bounds := tileBounds t
    if polygonContains poly ⟨bounds.north, bounds.west⟩ &&
        polygonContains poly ⟨bounds.north, bounds.east⟩ &&
        polygonContains poly ⟨bounds.south, bounds.west⟩ &&
        polygonContains poly ⟨bounds.south, bounds.east⟩ then
      ⟨st.tiles ++ [t], st.seen ++ [t]⟩
    else if poly.all (fun p => tileContains bounds p) then
      ⟨st.tiles ++ [t], st.seen ++ [t]⟩
    else if polygonIntersects poly bounds then
      ⟨st.tiles ++ [t], st.seen ++ [t]⟩
    else st

/-- Candidate tiles of one polygon, in the visit order of the Go loops:
zoom ascending from `minZoom` to `maxZoom`, then `x` ascending from `tlx`
to `brx`, then `y` ascending from `tly` to `bry`, where `(tlx, tly)` and
`(brx, bry)` come from the polygon bbox corners. -/
def polyCandidates (poly : List LatLng) (minZoom maxZoom : ℕ) : List Tile :=
  let bb := polyBBox poly
  ((List.range (maxZoom + 1 - minZoom)).map (minZoom + ·)).flatMap fun z =>
    let tl := latLonToTile bb.maxLat bb.minLon z
    let br := latLonToTile bb.minLat bb.maxLon z
    ((List.range (br.1 + 1 - tl.1)).map (tl.1 + ·)).flatMap fun x =>
      ((List.range (br.2 + 1 - tl.2)).map (tl.2 + ·)).map fun y => Tile.mk x y z

/-- `getTilesForPolygons`: fold `classifyAdd` over every polygon's
candidate tiles (polygons with fewer than 3 points are skipped), starting
from the empty slice and empty map, returning `allTiles`. -/
def getTilesForPolygons (polygonsData : List (List LatLng)) (minZoom maxZoom : ℕ) : List Tile :=
  (polygonsData.foldl
    (fun st poly =>
      if poly.length < 3 then st
      else (polyCandidates poly minZoom maxZoom).foldl
        (fun st t => classifyAdd poly t st) st)
    ⟨[], []⟩).tiles

/-- The full candidate enumeration across polygons, in dispatch order:
polygon order first, then zoom ascending, then `x` ascending, then `y`
ascending — the order in which `getTilesForPolygons` visits candidates. -/
def canonicalEnum (polygonsData : List (List LatLng)) (minZoom maxZoom : ℕ) : List Tile :=
  polygonsData.flatMap fun poly =>
    if poly.length < 3 then [] else polyCandidates poly minZoom maxZoom

end

/-! ## WebSocket events

One constructor per message `Type` the server emits, with the payload the
code attaches (`tile_skipped` / `tile_downloaded` carry the tile's
geographic bounds, `tile_failed` carries the `"z/x/y"` string). -/

inductive OutMsg where
  | error (message : String)
  | download_started (total_tiles : ℕ)
  | tile_skipped (bounds : BoundingBox)
  | tile_downloaded (bounds : BoundingBox)
  | tile_failed (coord : String)
  | tiles_downloaded
  | download_complete
  | download_cancelled

/-- Recognizer for `tile_failed` events. -/
def isTileFailed : OutMsg → Bool
  | .tile_failed _ => true
  | _ => false

/-- Recognizer for `tile_downloaded` events. -/
def isTileDownloaded : OutMsg → Bool
  | .tile_downloaded _ => true
  | _ => false

/-! ## Session state and the start/cancel handlers

The process-wide variables `downloading` (flag) and `downloadCancel`
(cancellation function, `nil` until the first `context.WithCancel`) become
an explicit state record.  Cancellation functions are identified by the
numeric id of the context they cancel; `nextCtx` models the freshness of
each `context.WithCancel` call, and `cancelledCtxs` records which contexts
have had their cancel function invoked. -/

structure ServerState where
  downloading : Bool
  downloadCancel : Option ℕ
  nextCtx : ℕ
  cancelledCtxs : List ℕ
deriving DecidableEq

/-- Zero value of the globals at process start: `downloading = false`,
`downloadCancel = nil`. -/
def initialServerState : ServerState := ⟨false, none, 0, []⟩

/-- `handleCancelDownload`: if a cancel function exists, invoke it and
emit `download_cancelled`; otherwise do nothing.  The handler does not
consult the `downloading` flag. -/
def handleCancelDownload (st : ServerState) : ServerState × List OutMsg :=
  match st.downloadCancel with
  | none => (st, [])
  | some c => ({ st with cancelledCtxs := c :: st.cancelledCtxs }, [.download_cancelled])

/-- `type DownloadRequest struct`: polygons, zoom range (Go `int`,
modelled as `ℤ`), map-style URL template, 8-bit conversion flag. -/
structure DownloadRequest where
  polygons : List (List LatLng)
  minZoom : ℤ
  maxZoom : ℤ
  mapStyle : String
  convertTo8Bit : Bool

/-- Result of running `handleStartDownload` to completion: the final
global state, the sequence of global-state snapshots (initial state, then
one after each mutation of the session state), and the messages sent on
the connection. -/
structure HandlerResult where
  final : ServerState
  trace : List ServerState
  events : List OutMsg

/-- `handleStartDownload` as a state transition.  Control flow of the Go
handler, in order: reject if `downloading` is set; set `downloading`;
create a fresh cancellable context and store its cancel function in
`downloadCancel`; validate the zoom range, then the polygons, sending an
`error` and returning on failure (the deferred reset of `downloading`
runs on every return path); otherwise select the tiles and run the
download.  The tile-download phase itself is concurrent and effectful; its
emitted event stream is supplied as the parameter `run` (a function of the
fresh context id), and `runCancelled ctx` tells whether that context was
cancelled during the run (`ctx.Err() != nil` at the end), which suppresses
the final `download_complete`.  The download phase is analysed separately
in `downloadTiles` / `downloadTile`. -/
noncomputable def handleStartDownload (st : ServerState) (req : DownloadRequest)
    (run : List Tile → ℕ → List OutMsg) (runCancelled : ℕ → Bool) : HandlerResult :=
  if st.downloading then
    ⟨st, [st], [.error "Another download is already in progress."]⟩
  else
    let st1 : ServerState := { st with downloading := true }
    let ctx := st1.nextCtx
    let st2 : ServerState := { st1 with downloadCancel := some ctx, nextCtx := ctx + 1 }
    if req.minZoom < 0 ∨ req.maxZoom > 19 ∨ req.minZoom > req.maxZoom then
      let st3 : ServerState := { st2 with downloading := false }
      ⟨st3, [st, st1, st2, st3], [.error "Invalid zoom range (must be 0-19, min <= max)"]⟩
    else if req.polygons.length = 0 then
      let st3 : ServerState := { st2 with downloading := false }
      ⟨st3, [st, st1, st2, st3], [.error "No polygons provided"]⟩
    else
      let tiles := getTilesForPolygons req.polygons req.minZoom.toNat req.maxZoom.toNat
      let st3 : ServerState := { st2 with downloading := false }
      ⟨st3, [st, st1, st2, st3],
        run tiles ctx ++ (if runCancelled ctx then [] else [.download_complete])⟩

/-! ## Single-tile download (`downloadTile`)

The effectful collaborators of one `downloadTile` call are gathered in an
environment record: the cache-existence check, the outcome of the HTTP
fetch at each attempt index (`none` collapses the four transient failure
points — request creation error, transport error, non-200 status,
body-read error — all of which back off and continue), directory creation
and file write success, the image converter (`none` = decode/encode
failure, which keeps the original bytes), the stream of
`rand.Intn(3)` draws, and the cancellation flag per attempt. -/

structure TileEnv where
  cached : Bool
  fetch : ℕ → Option (List ℕ)
  mkdirOk : Bool
  writeOk : Bool
  convert : List ℕ → Option (List ℕ)
  rnd : ℕ → Fin 3
  cancelled : ℕ → Bool

/-- Observable outcome of one `downloadTile` call: messages emitted on the
channel, bodies successfully written to the tile path, and the URL used by
each fetch attempt that ran. -/
structure TileOutcome where
  events : List OutMsg
  written : List (List ℕ)
  attemptUrls : List (List Char)

/-- Replacement loop of `strings.ReplaceAll`: replace each non-overlapping
leftmost occurrence of `pat` in the remaining input by `rep`.  The fuel
argument (instantiated with the input length, which bounds the number of
steps) makes the recursion structural. -/
def replaceAllAux (pat rep : List Char) : ℕ → List Char → List Char
  | 0, s => s
  | fuel + 1, s =>
    match s with
    | [] => []
    | c :: rest =>
      if pat ≠ [] ∧ pat.isPrefixOf (c :: rest) then
        rep ++ replaceAllAux pat rep fuel ((c :: rest).drop pat.length)
      else c :: replaceAllAux pat rep fuel rest

/-- `strings.ReplaceAll(s, pat, rep)` over character lists. -/
def replaceAllChars (s pat rep : List Char) : List Char :=
  replaceAllAux pat rep s.length s

/-- The fixed rotating subdomain set `[]string{"a", "b", "c"}`. -/
def subdomains : List (List Char) := ["a".toList, "b".toList, "c".toList]

/-- URL template substitution, in the code's order:
`{s}`, then `{z}`, then `{x}`, then `{y}`. -/
def buildTileUrl (mapStyle : List Char) (t : Tile) (sub : List Char) : List Char :=
  replaceAllChars
    (replaceAllChars
      (replaceAllChars (replaceAllChars mapStyle "{s}".toList sub)
        "{z}".toList (toString t.z).toList)
      "{x}".toList (toString t.x).toList)
    "{y}".toList (toString t.y).toList

/-- The retry loop `for attempt := 0; attempt < maxRetries; attempt++` of
`downloadTile`, at attempt index `attempt` with `remaining` attempts left.
Each iteration: return silently if cancelled; on fetch failure back off
and continue; on success create the directory (fatal for the tile on
failure), optionally convert (failure keeps the original bytes), write the
file (fatal for the tile on failure) and emit `tile_downloaded`.  When the
attempts are exhausted, emit `tile_failed`. -/
noncomputable def downloadTileLoop (t : Tile) (url : List Char) (convertTo8Bit : Bool)
    (env : TileEnv) : ℕ → ℕ → TileOutcome
  | _, 0 =>
    ⟨[.tile_failed (toString t.z ++ "/" ++ toString t.x ++ "/" ++ toString t.y)], [], []⟩
  | attempt, remaining + 1 =>
    if env.cancelled attempt then ⟨[], [], []⟩
    else
      match env.fetch attempt with
      | none =>
        let rest := downloadTileLoop t url convertTo8Bit env (attempt + 1) remaining
        ⟨rest.events, rest.written, url :: rest.attemptUrls⟩
      | some body =>
        if env.mkdirOk = false then ⟨[], [], [url]⟩
        else
          let finalBody := if convertTo8Bit then (env.convert body).getD body else body
          if env.writeOk = false then ⟨[], [], [url]⟩
          else ⟨[.tile_downloaded (tileBounds t)], [finalBody], [url]⟩

/-- `downloadTile`: emit `tile_skipped` if the tile file already exists;
otherwise pick the subdomain with a single `rand.Intn(3)` draw, build the
URL once, and run the retry loop. -/
noncomputable def downloadTile (t : Tile) (mapStyle : List Char) (convertTo8Bit : Bool)
    (maxRetries : ℕ) (env : TileEnv) : TileOutcome :=
  if env.cached then ⟨[.tile_skipped (tileBounds t)], [], []⟩
  else
    let subdomain := subdomains.get (env.rnd 0)
    let url := buildTileUrl mapStyle t subdomain
    downloadTileLoop t url convertTo8Bit env 0 maxRetries

/-- Modelled from the spec claim: "Each fetch attempt for a tile
(including each retry attempt after a failure) independently selects a
rotating subdomain" — the URL of attempt `i` is built from the `i`-th
random draw.  Mirrors the retry loop's failure path. -/
noncomputable def specAttemptUrls (t : Tile) (mapStyle : List Char) (env : TileEnv) :
    ℕ → ℕ → List (List Char)
  | _, 0 => []
  | attempt, remaining + 1 =>
    if env.cancelled attempt then []
    else
      let url := buildTileUrl mapStyle t (subdomains.get (env.rnd attempt))
      match env.fetch attempt with
      | none => url :: specAttemptUrls t mapStyle env (attempt + 1) remaining
      | some _ => [url]

/-! ## Orchestrator feeder (`downloadTiles`)

`downloadTiles` sends `download_started`, creates the rate-limit ticker
with interval `time.Second / time.Duration(*rateLimit)` (Go `int64`
division truncating toward zero; dividing by zero is a runtime fault, and
`time.NewTicker` faults on a non-positive interval), then feeds tiles to
the worker channel in list order, stopping at the first iteration whose
`select` observes the cancelled context.  Per-tile work and events are
produced concurrently by the workers (modelled by `downloadTile`); here we
model the feeder: which tiles get dispatched, in which order, and the
runtime faults of the rate-limiter setup. -/

inductive RunFault where
  | integerDivideByZero
  | newTickerNonPositive
deriving DecidableEq

/-- Feeder outcome: messages sent directly by `downloadTiles` before the
feed loop, the dispatched tiles in dispatch order, and the runtime fault,
if any. -/
structure FeedOutcome where
  events : List OutMsg
  dispatched : List Tile
  fault : Option RunFault

/-- `time.Second` in nanoseconds. -/
def nanosPerSecond : ℤ := 1000000000

/-- The feed loop: for each tile in order, stop if the context is
cancelled at this iteration, otherwise wait for a tick and send the tile.
`cancelled i` tells whether the `select` of iteration `i` observes
`ctx.Done()`. -/
def feedLoop (cancelled : ℕ → Bool) : List Tile → ℕ → List Tile
  | [], _ => []
  | t :: rest, i => if cancelled i then [] else t :: feedLoop cancelled rest (i + 1)

/-- `downloadTiles`, feeder view: emit `download_started{total_tiles}`,
compute the ticker interval (faulting like Go does on rate `0` or a
non-positive interval), then dispatch. -/
def downloadTiles (tilesToDownload : List Tile) (rateLimit : ℤ)
    (cancelled : ℕ → Bool) : FeedOutcome :=
  let started : List OutMsg := [.download_started tilesToDownload.length]
  if rateLimit = 0 then ⟨started, [], some .integerDivideByZero⟩
  else
    let interval := Int.tdiv nanosPerSecond rateLimit
    if interval ≤ 0 then ⟨started, [], some .newTickerNonPositive⟩
    else ⟨started, feedLoop cancelled tilesToDownload 0, none⟩

/-! # Theorems -/

/-! ## C4 — style-name sanitization -/

/-- C4 counterexample: the claim says every whitespace character is
replaced by a separator, including whitespace other than the space
character, such as tabs.  On input `"a<TAB>b"` the code deletes the tab
(the two words are concatenated), while the claimed behaviour
(`specSanitizeStyleName`) would keep them separated by `-`. -/
theorem sanitizeStyleName_tab_counterexample :
    sanitizeStyleName ['a', '\t', 'b'] = ['a', 'b'] ∧
    specSanitizeStyleName ['a', '\t', 'b'] = ['a', '-', 'b'] ∧
    sanitizeStyleName ['a', '\t', 'b'] ≠ specSanitizeStyleName ['a', '\t', 'b'] := by
  refine ⟨by decide, by decide, by decide⟩

/-- C4 (amended): sanitization replaces every space character (only U+0020,
not other whitespace) with `-` and removes every remaining character
outside `[A-Za-z0-9-_]`; the result contains only characters from
`[A-Za-z0-9-_]`, and words separated by the space character remain
separated. -/
theorem sanitizeStyleName_amended :
    ∀ s : List Char,
      (sanitizeStyleName s).all allowedChar = true ∧
      ∀ s₁ s₂ : List Char,
        sanitizeStyleName (s₁ ++ ' ' :: s₂) =
          sanitizeStyleName s₁ ++ '-' :: sanitizeStyleName s₂ := by
  intro s
  constructor
  · rw [List.all_eq_true]
    intro c hc
    exact List.of_mem_filter hc
  · intro s₁ s₂
    simp only [sanitizeStyleName, List.map_append, List.map_cons, List.filter_append,
      List.filter_cons]
    simp only [if_true, show allowedChar '-' = true by decide]

/-! ## C5 — world tile list -/

/-- Membership in one world zoom level. -/
theorem mem_worldLevel {t : Tile} {z : ℕ} :
    t ∈ worldLevel z ↔ t.x < 2 ^ z ∧ t.y < 2 ^ z ∧ t.z = z := by
  simp only [worldLevel, List.mem_flatMap, List.mem_map, List.mem_range]
  constructor
  · rintro ⟨x, hx, y, hy, rfl⟩
    exact ⟨hx, hy, rfl⟩
  · rintro ⟨hx, hy, rfl⟩
    exact ⟨t.x, hx, t.y, hy, rfl⟩

/-- Length of one world zoom level. -/
theorem length_worldLevel (z : ℕ) : (worldLevel z).length = 2 ^ z * 2 ^ z := by
  rw [worldLevel, List.length_flatMap]
  have h : ((List.range (2 ^ z)).map
      (List.length ∘ fun x => (List.range (2 ^ z)).map fun y => Tile.mk x y z)) =
      (List.range (2 ^ z)).map (fun _ => 2 ^ z) := by
    apply List.map_congr_left
    intro x _
    simp
  rw [h, List.map_const', List.sum_replicate, List.length_range, smul_eq_mul]

/-- Each world zoom level is duplicate-free. -/
theorem nodup_worldLevel (z : ℕ) : (worldLevel z).Nodup := by
  rw [worldLevel, List.nodup_flatMap]
  constructor
  · intro x _
    exact (List.nodup_range _).map fun a b h => by injection h
  · apply (List.pairwise_lt_range _).imp
    intro a b hab t hta htb
    simp only [List.mem_map, List.mem_range] at hta htb
    obtain ⟨y₁, -, rfl⟩ := hta
    obtain ⟨y₂, -, h⟩ := htb
    injection h with h1 h2 h3
    omega

/-- Count of tiles of a fixed zoom within one world zoom level. -/
theorem countP_worldLevel (z k : ℕ) :
    (worldLevel z).countP (fun t => t.z == k) = if z = k then 2 ^ z * 2 ^ z else 0 := by
  by_cases h : z = k
  · subst h
    rw [if_pos rfl, ← length_worldLevel]
    rw [List.countP_eq_length]
    intro t ht
    have := (mem_worldLevel.mp ht).2.2
    simp [this]
  · rw [if_neg h, List.countP_eq_zero]
    intro t ht
    have := (mem_worldLevel.mp ht).2.2
    simp [this, h]

/-- C5: the world tile list contains exactly the tiles `(x, y, z)` with
`0 ≤ z ≤ 7`, `0 ≤ x < 2^z`, `0 ≤ y < 2^z`, each exactly once: 1 tile at
zoom 0, 16384 tiles at zoom 7, and 21845 tiles in total. -/
theorem getWorldTiles_spec :
    (∀ t : Tile, t ∈ getWorldTiles ↔ t.z ≤ 7 ∧ t.x < 2 ^ t.z ∧ t.y < 2 ^ t.z) ∧
    getWorldTiles.Nodup ∧
    getWorldTiles.length = 21845 ∧
    (getWorldTiles.countP fun t => t.z == 0) = 1 ∧
    (getWorldTiles.countP fun t => t.z == 7) = 16384 := by
  refine ⟨?_, ?_, ?_, ?_, ?_⟩
  · intro t
    simp only [getWorldTiles, List.mem_flatMap, List.mem_range]
    constructor
    · rintro ⟨z, hz, ht⟩
      obtain ⟨hx, hy, rfl⟩ := mem_worldLevel.mp ht
      exact ⟨by omega, hx, hy⟩
    · rintro ⟨hz, hx, hy⟩
      exact ⟨t.z, by omega, mem_worldLevel.mpr ⟨hx, hy, rfl⟩⟩
  · rw [getWorldTiles, List.nodup_flatMap]
    refine ⟨fun z _ => nodup_worldLevel z, ?_⟩
    apply (List.pairwise_lt_range _).imp
    intro a b hab t hta htb
    have ha := (mem_worldLevel.mp hta).2.2
    have hb := (mem_worldLevel.mp htb).2.2
    omega
  · rw [getWorldTiles, List.length_flatMap]
    have h : ((List.range 8).map (List.length ∘ worldLevel)) =
        (List.range 8).map (fun z => 2 ^ z * 2 ^ z) := by
      apply List.map_congr_left
      intro z _
      simp [length_worldLevel]
    rw [h]
    decide
  · rw [getWorldTiles, List.countP_flatMap]
    have h : ((List.range 8).map (List.countP (fun t => t.z == 0) ∘ worldLevel)) =
        (List.range 8).map (fun z => if z = 0 then 2 ^ z * 2 ^ z else 0) := by
      apply List.map_congr_left
      intro z _
      simp [countP_worldLevel]
    rw [h]
    decide
  · rw [getWorldTiles, List.countP_flatMap]
    have h : ((List.range 8).map (List.countP (fun t => t.z == 7) ∘ worldLevel)) =
        (List.range 8).map (fun z => if z = 7 then 2 ^ z * 2 ^ z else 0) := by
      apply List.map_congr_left
      intro z _
      simp [countP_worldLevel]
    rw [h]
    decide

/-! ## C9 — cancel without a running download -/

/-- C9: once any download session has ever been created the cancel
function is non-nil and never reset, so invoking cancel when nothing is
running still emits `download_cancelled`; before any session was ever
created (`downloadCancel = nil`, the process-start state) cancel emits no
event.  The third conjunct shows every start request that passes the
concurrency gate installs a cancel function, even if it is later rejected
by validation. -/
theorem handleCancelDownload_spec :
    (∀ st : ServerState, st.downloading = false → ∀ c : ℕ, st.downloadCancel = some c →
      (handleCancelDownload st).2 = [.download_cancelled]) ∧
    (handleCancelDownload initialServerState).2 = [] ∧
    (∀ (st : ServerState) (req : DownloadRequest) (run : List Tile → ℕ → List OutMsg)
      (rc : ℕ → Bool), st.downloading = false →
      (handleStartDownload st req run rc).final.downloadCancel ≠ none) := by
  refine ⟨?_, rfl, ?_⟩
  · intro st _ c hc
    simp [handleCancelDownload, hc]
  · intro st req run rc hidle
    rw [handleStartDownload]
    rw [if_neg (by simp [hidle])]
    split
    · simp
    · split
      · simp
      · simp

/-- C9 witness: concrete instances — cancel after a session existed but
nothing is running emits the event; cancel at process start emits nothing;
a start from the idle state installs a cancel function. -/
theorem handleCancelDownload_spec_witness :
    (handleCancelDownload ⟨false, some 0, 1, []⟩).2 = [.download_cancelled] ∧
    (handleCancelDownload initialServerState).2 = [] ∧
    (handleStartDownload initialServerState ⟨[], 0, 7, "", false⟩ (fun _ _ => [])
      (fun _ => false)).final.downloadCancel ≠ none :=
  ⟨handleCancelDownload_spec.1 ⟨false, some 0, 1, []⟩ rfl 0 rfl,
   handleCancelDownload_spec.2.1,
   handleCancelDownload_spec.2.2 initialServerState ⟨[], 0, 7, "", false⟩ (fun _ _ => [])
     (fun _ => false) rfl⟩

/-! ## C1 — validation versus session-state mutation -/

/-- C1 counterexample: an area request failing zoom validation
(`minZoom = 5 > maxZoom = 3`), issued from the fresh process state, is
rejected with an error event — but session state IS mutated first: the
trace passes through a state with `downloading = true`, and the
cancellation token is replaced (it changes from `nil` to a live cancel
function), contradicting "no per-session state is changed by the rejected
request". -/
theorem handleStartDownload_validation_counterexample :
    (handleStartDownload initialServerState ⟨[], 5, 3, "", false⟩ (fun _ _ => [])
        (fun _ => false)).events = [.error "Invalid zoom range (must be 0-19, min <= max)"] ∧
    ((handleStartDownload initialServerState ⟨[], 5, 3, "", false⟩ (fun _ _ => [])
        (fun _ => false)).trace.any fun s => s.downloading) = true ∧
    (handleStartDownload initialServerState ⟨[], 5, 3, "", false⟩ (fun _ _ => [])
        (fun _ => false)).final.downloadCancel ≠ initialServerState.downloadCancel := by
  refine ⟨?_, ?_, ?_⟩ <;>
    simp [handleStartDownload, initialServerState, show (5:ℤ) > 3 by norm_num]

/-- C1 (amended): a validation-failing area request (bad zoom range or
empty polygon list) is rejected with exactly one error event and the
session is not `Running` once the handler returns — but the handler first
sets the `downloading` flag (resetting it on return) and replaces the
cancellation token before validating, so the rejected request does mutate
per-session state: the new cancel function survives. -/
theorem handleStartDownload_validation_behavior (st : ServerState) (req : DownloadRequest)
    (run : List Tile → ℕ → List OutMsg) (rc : ℕ → Bool)
    (hidle : st.downloading = false)
    (hinvalid : (req.minZoom < 0 ∨ req.maxZoom > 19 ∨ req.minZoom > req.maxZoom) ∨
      req.polygons.length = 0) :
    (∃ m, (handleStartDownload st req run rc).events = [.error m]) ∧
    (handleStartDownload st req run rc).final.downloading = false ∧
    (handleStartDownload st req run rc).final.downloadCancel = some st.nextCtx ∧
    ∃ s ∈ (handleStartDownload st req run rc).trace, s.downloading = true := by
  rw [handleStartDownload, if_neg (by simp [hidle])]
  rcases Classical.em (req.minZoom < 0 ∨ req.maxZoom > 19 ∨ req.minZoom > req.maxZoom) with
    hz | hz
  · rw [if_pos hz]
    refine ⟨⟨_, rfl⟩, rfl, rfl, ⟨{ st with downloading := true }, by simp, rfl⟩⟩
  · rw [if_neg hz]
    have hp : req.polygons.length = 0 := by tauto
    rw [if_pos hp]
    refine ⟨⟨_, rfl⟩, rfl, rfl, ⟨{ st with downloading := true }, by simp, rfl⟩⟩

/-- C1 witness: the amended theorem applied to the fresh process state and
a request whose zoom range is invalid. -/
theorem handleStartDownload_validation_behavior_witness :
    (∃ m, (handleStartDownload initialServerState ⟨[], 0, 25, "x", false⟩ (fun _ _ => [])
        (fun _ => true)).events = [.error m]) ∧
    (handleStartDownload initialServerState ⟨[], 0, 25, "x", false⟩ (fun _ _ => [])
        (fun _ => true)).final.downloading = false ∧
    (handleStartDownload initialServerState ⟨[], 0, 25, "x", false⟩ (fun _ _ => [])
        (fun _ => true)).final.downloadCancel = some initialServerState.nextCtx ∧
    ∃ s ∈ (handleStartDownload initialServerState ⟨[], 0, 25, "x", false⟩ (fun _ _ => [])
        (fun _ => true)).trace, s.downloading = true :=
  handleStartDownload_validation_behavior initialServerState ⟨[], 0, 25, "x", false⟩
    (fun _ _ => []) (fun _ => true) rfl (by norm_num)

/-! ## Shared facts about the selector fold -/

/-- One `classifyAdd` step either leaves the state unchanged or appends a
tile that was not yet in the deduplication map to both the result slice
and the map. -/
theorem classifyAdd_eq_or (poly : List LatLng) (t : Tile) (st : SelState) :
    classifyAdd poly t st = st ∨
      (t ∉ st.seen ∧ classifyAdd poly t st = ⟨st.tiles ++ [t], st.seen ++ [t]⟩) := by
  simp only [classifyAdd]
  split_ifs with h1 h2 h3 h4
  · left; rfl
  · right; exact ⟨h1, rfl⟩
  · right; exact ⟨h1, rfl⟩
  · right; exact ⟨h1, rfl⟩
  · left; rfl

/-- Folding `classifyAdd` over a candidate list appends, in candidate
order, a duplicate-free sub-list of the candidates, all of whose members
are fresh for the incoming map. -/
theorem foldl_classifyAdd_spec (poly : List LatLng) :
    ∀ (L : List Tile) (st : SelState),
      ∃ Δ : List Tile,
        L.foldl (fun s t => classifyAdd poly t s) st = ⟨st.tiles ++ Δ, st.seen ++ Δ⟩ ∧
        Δ.Sublist L ∧ Δ.Nodup ∧ ∀ t ∈ Δ, t ∉ st.seen := by
  intro L
  induction L with
  | nil =>
    intro st
    exact ⟨[], by simp, List.nil_sublist _, List.nodup_nil, by simp⟩
  | cons t L ih =>
    intro st
    rcases classifyAdd_eq_or poly t st with h | ⟨hnotin, h⟩
    · rcases ih st with ⟨Δ, hfold, hsub, hnd, hfresh⟩
      refine ⟨Δ, ?_, hsub.cons t, hnd, hfresh⟩
      rw [List.foldl_cons, h, hfold]
    · rcases ih ⟨st.tiles ++ [t], st.seen ++ [t]⟩ with ⟨Δ, hfold, hsub, hnd, hfresh⟩
      refine ⟨t :: Δ, ?_, hsub.cons₂ t, ?_, ?_⟩
      · rw [List.foldl_cons, h, hfold]
        simp
      · rw [List.nodup_cons]
        refine ⟨fun hmem => ?_, hnd⟩
        exact hfresh t hmem (by simp)
      · intro u hu
        rcases List.mem_cons.mp hu with rfl | hu2
        · exact hnotin
        · intro hseen
          exact hfresh u hu2 (by simp [hseen])

/-- Folding the per-polygon selector body over a polygon list appends a
duplicate-free sub-list of the canonical candidate enumeration, fresh for
the incoming map. -/
theorem selector_fold_spec (minZoom maxZoom : ℕ) :
    ∀ (polys : List (List LatLng)) (st : SelState),
      ∃ Δ : List Tile,
        polys.foldl
          (fun st poly =>
            if poly.length < 3 then st
            else (polyCandidates poly minZoom maxZoom).foldl
              (fun st t => classifyAdd poly t st) st) st =
          ⟨st.tiles ++ Δ, st.seen ++ Δ⟩ ∧
        Δ.Sublist (canonicalEnum polys minZoom maxZoom) ∧ Δ.Nodup ∧
        ∀ t ∈ Δ, t ∉ st.seen := by
  intro polys
  induction polys with
  | nil =>
    intro st
    exact ⟨[], by simp, List.nil_sublist _, List.nodup_nil, by simp⟩
  | cons poly polys ih =>
    intro st
    rw [List.foldl_cons]
    by_cases hlen : poly.length < 3
    · rw [if_pos hlen]
      rcases ih st with ⟨Δ, hfold, hsub, hnd, hfresh⟩
      refine ⟨Δ, hfold, ?_, hnd, hfresh⟩
      rw [canonicalEnum, List.flatMap_cons, if_pos hlen, List.nil_append]
      exact hsub
    · rw [if_neg hlen]
      rcases foldl_classifyAdd_spec poly (polyCandidates poly minZoom maxZoom) st with
        ⟨Δ₁, hfold₁, hsub₁, hnd₁, hfresh₁⟩
      rcases ih ⟨st.tiles ++ Δ₁, st.seen ++ Δ₁⟩ with ⟨Δ₂, hfold₂, hsub₂, hnd₂, hfresh₂⟩
      refine ⟨Δ₁ ++ Δ₂, ?_, ?_, ?_, ?_⟩
      · rw [hfold₁, hfold₂]
        simp
      · rw [canonicalEnum, List.flatMap_cons, if_neg hlen]
        exact hsub₁.append hsub₂
      · refine hnd₁.append hnd₂ ?_
        intro u hu1 hu2
        exact hfresh₂ u hu2 (by simp [hu1])
      · intro u hu
        rcases List.mem_append.mp hu with hu1 | hu2
        · exact hfresh₁ u hu1
        · intro hseen
          exact hfresh₂ u hu2 (by simp [hseen])

/-! ## C6 — selector output has no duplicates -/

/-- C6: for every polygon list and zoom range, the tile list returned by
`getTilesForPolygons` contains no duplicate tiles, whatever the overlap
between polygons or the classification rule a tile qualifies under. -/
theorem getTilesForPolygons_nodup (polys : List (List LatLng)) (minZoom maxZoom : ℕ) :
    (getTilesForPolygons polys minZoom maxZoom).Nodup := by
  rw [getTilesForPolygons]
  rcases selector_fold_spec minZoom maxZoom polys ⟨[], []⟩ with ⟨Δ, hfold, _, hnd, _⟩
  rw [hfold]
  simpa using hnd

/-! ## Shared facts about the feeder -/

/-- The rate-limit interval `time.Second / time.Duration(rate)` is
positive for every realistic positive rate. -/
theorem ticker_interval_pos {r : ℤ} (h1 : 1 ≤ r) (h2 : r ≤ nanosPerSecond) :
    0 < Int.tdiv nanosPerSecond r := by
  simp only [nanosPerSecond] at h2 ⊢
  rw [Int.tdiv_eq_ediv (by norm_num) (by omega)]
  have h3 : (1:ℤ) ≤ 1000000000 / r := (Int.le_ediv_iff_mul_le (by omega)).mpr (by omega)
  omega

/-- The feed loop dispatches a prefix of the tile list. -/
theorem feedLoop_take (cancelled : ℕ → Bool) :
    ∀ (l : List Tile) (i : ℕ), ∃ k, feedLoop cancelled l i = l.take k := by
  intro l
  induction l with
  | nil => intro i; exact ⟨0, rfl⟩
  | cons t rest ih =>
    intro i
    rw [feedLoop]
    by_cases h : cancelled i
    · exact ⟨0, by rw [if_pos h]; rfl⟩
    · rcases ih (i + 1) with ⟨k, hk⟩
      exact ⟨k + 1, by rw [if_neg h, hk]; rfl⟩

/-- Without cancellation the feed loop dispatches the whole list. -/
theorem feedLoop_all {cancelled : ℕ → Bool} (h : ∀ i, cancelled i = false) :
    ∀ (l : List Tile) (i : ℕ), feedLoop cancelled l i = l := by
  intro l
  induction l with
  | nil => intro i; rfl
  | cons t rest ih =>
    intro i
    rw [feedLoop, if_neg (by simp [h i]), ih (i + 1)]

/-! ## C10 — rate-limiter setup faults -/

/-- C10: `downloadTiles` is fault-free for every realistic positive rate,
but a rate limit of `0` hits the integer division by zero in
`time.Second / time.Duration(*rateLimit)` and a negative rate makes the
interval non-positive so `time.NewTicker` faults — in both cases before
any tile is dispatched. -/
theorem downloadTiles_rate_fault (tiles : List Tile) (cancelled : ℕ → Bool) :
    (∀ r : ℤ, 1 ≤ r → r ≤ nanosPerSecond →
      (downloadTiles tiles r cancelled).fault = none) ∧
    ((downloadTiles tiles 0 cancelled).fault = some .integerDivideByZero ∧
      (downloadTiles tiles 0 cancelled).dispatched = []) ∧
    (∀ r : ℤ, r < 0 →
      (downloadTiles tiles r cancelled).fault = some .newTickerNonPositive ∧
      (downloadTiles tiles r cancelled).dispatched = []) := by
  refine ⟨?_, ⟨rfl, rfl⟩, ?_⟩
  · intro r h1 h2
    rw [downloadTiles, if_neg (by omega)]
    rw [if_neg (by simpa using ticker_interval_pos h1 h2)]
  · intro r h
    have hle : Int.tdiv nanosPerSecond r ≤ 0 := by
      have h1 : r = -(-r) := by ring
      rw [h1, Int.tdiv_neg]
      have h2 : 0 ≤ Int.tdiv nanosPerSecond (-r) :=
        Int.tdiv_nonneg (by rw [nanosPerSecond]; norm_num) (by omega)
      omega
    rw [downloadTiles, if_neg (by omega), if_pos hle]
    exact ⟨rfl, rfl⟩

/-- C10 witness: rate 50 is fault-free; rate 0 and rate -5 fault with no
tile dispatched. -/
theorem downloadTiles_rate_fault_witness :
    (downloadTiles [⟨0, 0, 0⟩] 50 (fun _ => false)).fault = none ∧
    (downloadTiles [⟨0, 0, 0⟩] 0 (fun _ => false)).fault = some .integerDivideByZero ∧
    (downloadTiles [⟨0, 0, 0⟩] (-5) (fun _ => false)).fault = some .newTickerNonPositive ∧
    (downloadTiles [⟨0, 0, 0⟩] (-5) (fun _ => false)).dispatched = [] :=
  ⟨(downloadTiles_rate_fault [⟨0, 0, 0⟩] (fun _ => false)).1 50 (by norm_num)
      (by rw [nanosPerSecond]; norm_num),
   ((downloadTiles_rate_fault [⟨0, 0, 0⟩] (fun _ => false)).2.1).1,
   ((downloadTiles_rate_fault [⟨0, 0, 0⟩] (fun _ => false)).2.2 (-5) (by norm_num)).1,
   ((downloadTiles_rate_fault [⟨0, 0, 0⟩] (fun _ => false)).2.2 (-5) (by norm_num)).2⟩

/-! ## C7 — deterministic enumeration and dispatch order -/

/-- C7: the selector emits its tiles in the deterministic candidate order
(polygon order first, then zoom ascending, then `x` ascending, then `y`
ascending — the order of `canonicalEnum`), of which its output is a
sub-list; and the feeder dispatches tiles to the workers in exactly the
list order it is given: always a prefix of the list, and the whole list in
order when nothing cancels and the rate limiter is set up. -/
theorem selector_feeder_order (polys : List (List LatLng)) (minZoom maxZoom : ℕ)
    (tiles : List Tile) (cancelled : ℕ → Bool) (r : ℤ) :
    (getTilesForPolygons polys minZoom maxZoom).Sublist
      (canonicalEnum polys minZoom maxZoom) ∧
    (∃ k, (downloadTiles tiles r cancelled).dispatched = tiles.take k) ∧
    (1 ≤ r → r ≤ nanosPerSecond → (∀ i, cancelled i = false) →
      (downloadTiles tiles r cancelled).dispatched = tiles) := by
  refine ⟨?_, ?_, ?_⟩
  · rw [getTilesForPolygons]
    rcases selector_fold_spec minZoom maxZoom polys ⟨[], []⟩ with ⟨Δ, hfold, hsub, _, _⟩
    rw [hfold]
    simpa using hsub
  · simp only [downloadTiles]
    split
    · exact ⟨0, rfl⟩
    · split
      · exact ⟨0, rfl⟩
      · exact feedLoop_take cancelled tiles 0
  · intro h1 h2 hc
    rw [downloadTiles, if_neg (by omega),
      if_neg (by simpa using ticker_interval_pos h1 h2)]
    exact feedLoop_all hc tiles 0

/-- C7 witness: concrete instantiation with a trivial polygon list, one
tile, no cancellation and rate 50. -/
theorem selector_feeder_order_witness :
    (getTilesForPolygons [] 0 0).Sublist (canonicalEnum [] 0 0) ∧
    (∃ k, (downloadTiles [⟨0, 0, 0⟩] 50 (fun _ => false)).dispatched =
      ([⟨0, 0, 0⟩] : List Tile).take k) ∧
    (downloadTiles [⟨0, 0, 0⟩] 50 (fun _ => false)).dispatched = [⟨0, 0, 0⟩] :=
  ⟨(selector_feeder_order [] 0 0 [⟨0, 0, 0⟩] (fun _ => false) 50).1,
   (selector_feeder_order [] 0 0 [⟨0, 0, 0⟩] (fun _ => false) 50).2.1,
   (selector_feeder_order [] 0 0 [⟨0, 0, 0⟩] (fun _ => false) 50).2.2 (by norm_num)
     (by rw [nanosPerSecond]; norm_num) (fun _ => rfl)⟩

/-! ## Shared facts about the retry loop -/

/-- With no cancellation and every attempt in `[a, a + r)` failing, the
retry loop ends with exactly the `tile_failed` message, no write, and `r`
issued attempts, all at the same URL. -/
theorem downloadTileLoop_all_fail (t : Tile) (url : List Char) (conv : Bool) (env : TileEnv)
    (hcan : ∀ i, env.cancelled i = false) :
    ∀ (r a : ℕ), (∀ i, a ≤ i → i < a + r → env.fetch i = none) →
      downloadTileLoop t url conv env a r =
        ⟨[.tile_failed (toString t.z ++ "/" ++ toString t.x ++ "/" ++ toString t.y)], [],
          List.replicate r url⟩ := by
  intro r
  induction r with
  | zero => intro a _; rfl
  | succ r ih =>
    intro a h
    rw [downloadTileLoop, if_neg (by simp [hcan a]), h a (by omega) (by omega),
      ih (a + 1) (fun i h1 h2 => h i (by omega) (by omega))]
    simp [List.replicate_succ]

/-- With no cancellation, `k` leading failures and a successful fetch at
attempt `a + k` (with `k < r` attempts available) and a working
filesystem, the retry loop ends with exactly the `tile_downloaded`
message, one write, and `k + 1` issued attempts at the same URL. -/
theorem downloadTileLoop_success (t : Tile) (url : List Char) (conv : Bool) (env : TileEnv)
    (hcan : ∀ i, env.cancelled i = false) (hmk : env.mkdirOk = true)
    (hwr : env.writeOk = true) :
    ∀ (k a r : ℕ), k < r → (∀ i, a ≤ i → i < a + k → env.fetch i = none) →
      ∀ b, env.fetch (a + k) = some b →
      downloadTileLoop t url conv env a r =
        ⟨[.tile_downloaded (tileBounds t)],
          [if conv then (env.convert b).getD b else b],
          List.replicate (k + 1) url⟩ := by
  intro k
  induction k with
  | zero =>
    intro a r hk _ b hb
    obtain ⟨r', rfl⟩ : ∃ r', r = r' + 1 := ⟨r - 1, by omega⟩
    rw [downloadTileLoop, if_neg (by simp [hcan a])]
    rw [show env.fetch a = some b by simpa using hb]
    simp [hmk, hwr]
  | succ k ih =>
    intro a r hk hfail b hb
    obtain ⟨r', rfl⟩ : ∃ r', r = r' + 1 := ⟨r - 1, by omega⟩
    rw [downloadTileLoop, if_neg (by simp [hcan a]), hfail a (by omega) (by omega)]
    rw [ih (a + 1) r' (by omega) (fun i h1 h2 => hfail i (by omega) (by omega)) b
      (by rw [show a + 1 + k = a + (k + 1) by omega]; exact hb)]
    simp [List.replicate_succ]

/-- Every URL the retry loop issues an attempt against is the one URL it
was given. -/
theorem downloadTileLoop_urls (t : Tile) (url : List Char) (conv : Bool) (env : TileEnv) :
    ∀ (r a : ℕ), ∀ u ∈ (downloadTileLoop t url conv env a r).attemptUrls, u = url := by
  intro r
  induction r with
  | zero =>
    intro a u hu
    simp only [downloadTileLoop] at hu
    simp at hu
  | succ r ih =>
    intro a u hu
    rw [downloadTileLoop] at hu
    by_cases hcanc : env.cancelled a
    · rw [if_pos hcanc] at hu
      simp at hu
    · rw [if_neg hcanc] at hu
      rcases hfetch : env.fetch a with - | b
      · rw [hfetch] at hu
        dsimp only at hu
        rcases List.mem_cons.mp hu with rfl | hu2
        · rfl
        · exact ih (a + 1) u hu2
      · rw [hfetch] at hu
        dsimp only at hu
        split_ifs at hu <;> simpa using hu

/-! ## C2 — retry/event discipline of `downloadTile` -/

/-- C2: for an uncached, uncancelled tile, if the fetch fails at every one
of the `maxRetries` attempts then exactly one `tile_failed` event is
emitted, no `tile_downloaded` event, and nothing is written to the cache;
if the fetch fails `k < maxRetries` times and then succeeds (and the local
filesystem cooperates) then exactly one `tile_downloaded` event is emitted
and no `tile_failed` event. -/
theorem downloadTile_retry_events (t : Tile) (style : List Char) (conv : Bool) (mr : ℕ)
    (env : TileEnv) (hc : env.cached = false) (hcan : ∀ i, env.cancelled i = false) :
    ((∀ i, i < mr → env.fetch i = none) →
      (downloadTile t style conv mr env).events.countP isTileFailed = 1 ∧
      (downloadTile t style conv mr env).events.countP isTileDownloaded = 0 ∧
      (downloadTile t style conv mr env).written = []) ∧
    (∀ k, k < mr → (∀ i, i < k → env.fetch i = none) →
      ∀ b, env.fetch k = some b → env.mkdirOk = true → env.writeOk = true →
      (downloadTile t style conv mr env).events.countP isTileDownloaded = 1 ∧
      (downloadTile t style conv mr env).events.countP isTileFailed = 0) := by
  constructor
  · intro hfail
    rw [downloadTile, if_neg (by simp [hc])]
    rw [downloadTileLoop_all_fail t _ conv env hcan mr 0 (fun i _ h2 => hfail i (by omega))]
    simp [isTileFailed, isTileDownloaded]
  · intro k hk hfail b hb hmk hwr
    rw [downloadTile, if_neg (by simp [hc])]
    rw [downloadTileLoop_success t _ conv env hcan hmk hwr k 0 mr hk
      (fun i _ h2 => hfail i (by omega)) b (by simpa using hb)]
    simp [isTileFailed, isTileDownloaded]

/-- C2 witness: with three attempts available, an always-failing fetch
yields one `tile_failed`, no download and no write; a fetch failing twice
then succeeding yields one `tile_downloaded` and no `tile_failed`. -/
theorem downloadTile_retry_events_witness :
    ((downloadTile ⟨0, 0, 0⟩ "s".toList false 3
        ⟨false, fun _ => none, true, true, fun b => some b, fun _ => 0,
          fun _ => false⟩).events.countP isTileFailed = 1 ∧
      (downloadTile ⟨0, 0, 0⟩ "s".toList false 3
        ⟨false, fun _ => none, true, true, fun b => some b, fun _ => 0,
          fun _ => false⟩).written = []) ∧
    ((downloadTile ⟨0, 0, 0⟩ "s".toList false 3
        ⟨false, fun i => if i < 2 then none else some [7], true, true, fun b => some b,
          fun _ => 0, fun _ => false⟩).events.countP isTileDownloaded = 1 ∧
      (downloadTile ⟨0, 0, 0⟩ "s".toList false 3
        ⟨false, fun i => if i < 2 then none else some [7], true, true, fun b => some b,
          fun _ => 0, fun _ => false⟩).events.countP isTileFailed = 0) :=
  ⟨⟨((downloadTile_retry_events ⟨0, 0, 0⟩ "s".toList false 3 _ rfl (fun _ => rfl)).1
      (fun i _ => rfl)).1,
    ((downloadTile_retry_events ⟨0, 0, 0⟩ "s".toList false 3 _ rfl (fun _ => rfl)).1
      (fun i _ => rfl)).2.2⟩,
   (downloadTile_retry_events ⟨0, 0, 0⟩ "s".toList false 3 _ rfl (fun _ => rfl)).2 2 (by omega)
     (fun i hi => by simp [hi]) [7] (by norm_num) rfl rfl⟩

/-! ## C8 — subdomain selection across retries -/

/-- C8 counterexample: the claim says each retry attempt independently
selects a rotating subdomain.  With the random stream `0, 1, 2, ...` and
two always-failing attempts, the code issues both attempts against the
`a.` subdomain URL (the single draw happens before the loop), whereas the
claimed per-attempt selection (`specAttemptUrls`) would use `a.` then
`b.`. -/
theorem downloadTile_subdomain_counterexample :
    (downloadTile ⟨0, 0, 0⟩ "https://{s}.tile.example/{z}/{x}/{y}.png".toList false 2
        ⟨false, fun _ => none, true, true, fun b => some b, fun i => (i : Fin 3),
          fun _ => false⟩).attemptUrls =
      ["https://a.tile.example/0/0/0.png".toList, "https://a.tile.example/0/0/0.png".toList] ∧
    specAttemptUrls ⟨0, 0, 0⟩ "https://{s}.tile.example/{z}/{x}/{y}.png".toList
        ⟨false, fun _ => none, true, true, fun b => some b, fun i => (i : Fin 3),
          fun _ => false⟩ 0 2 =
      ["https://a.tile.example/0/0/0.png".toList, "https://b.tile.example/0/0/0.png".toList] ∧
    (downloadTile ⟨0, 0, 0⟩ "https://{s}.tile.example/{z}/{x}/{y}.png".toList false 2
        ⟨false, fun _ => none, true, true, fun b => some b, fun i => (i : Fin 3),
          fun _ => false⟩).attemptUrls ≠
      specAttemptUrls ⟨0, 0, 0⟩ "https://{s}.tile.example/{z}/{x}/{y}.png".toList
        ⟨false, fun _ => none, true, true, fun b => some b, fun i => (i : Fin 3),
          fun _ => false⟩ 0 2 := by
  have hcode : (downloadTile ⟨0, 0, 0⟩ "https://{s}.tile.example/{z}/{x}/{y}.png".toList false 2
      ⟨false, fun _ => none, true, true, fun b => some b, fun i => (i : Fin 3),
        fun _ => false⟩).attemptUrls =
      ["https://a.tile.example/0/0/0.png".toList, "https://a.tile.example/0/0/0.png".toList] := by
    rw [downloadTile, if_neg (by simp)]
    rw [downloadTileLoop_all_fail _ _ _ _ (fun _ => rfl) 2 0 (fun i _ _ => rfl)]
    decide
  have hspec : specAttemptUrls ⟨0, 0, 0⟩ "https://{s}.tile.example/{z}/{x}/{y}.png".toList
      ⟨false, fun _ => none, true, true, fun b => some b, fun i => (i : Fin 3),
        fun _ => false⟩ 0 2 =
      ["https://a.tile.example/0/0/0.png".toList, "https://b.tile.example/0/0/0.png".toList] := by
    decide
  refine ⟨hcode, hspec, ?_⟩
  rw [hcode, hspec]
  decide

/-- C8 (amended): the rotating subdomain is selected once per tile, with a
single random draw before the first attempt; every attempt of the tile —
including every retry — uses the same URL, built from that first draw, so
successive retries of one tile never switch subdomains. -/
theorem downloadTile_subdomain_amended (t : Tile) (style : List Char) (conv : Bool)
    (mr : ℕ) (env : TileEnv) :
    (downloadTile t style conv mr env).attemptUrls.all
      (fun u => u == buildTileUrl style t (subdomains.get (env.rnd 0))) = true := by
  rw [List.all_eq_true]
  intro u hu
  rw [beq_iff_eq]
  revert u hu
  rw [downloadTile]
  split
  · intro u hu
    simp at hu
  · exact downloadTileLoop_urls t _ conv env mr 0

/-! ## C3 — tile coordinate ranges of the selector -/

/-- A candidate tile of a polygon lies within the candidate rectangle of
its zoom level. -/
theorem mem_polyCandidates {poly : List LatLng} {mn mx : ℕ} {t : Tile}
    (ht : t ∈ polyCandidates poly mn mx) :
    t.x ≤ (latLonToTile (polyBBox poly).minLat (polyBBox poly).maxLon t.z).1 ∧
    t.y ≤ (latLonToTile (polyBBox poly).minLat (polyBBox poly).maxLon t.z).2 := by
  simp only [polyCandidates, List.mem_flatMap, List.mem_map, List.mem_range] at ht
  obtain ⟨z, ⟨iz, hiz, rfl⟩, x, ⟨jx, hjx, rfl⟩, y, ⟨ky, hky, rfl⟩, rfl⟩ := ht
  constructor
  · simp only
    omega
  · simp only
    omega

/-- Truncation of a floor bounded by a positive natural bound. -/
theorem floorToNat_lt {r : ℝ} {n : ℕ} (hpos : 0 < n) (hf : ⌊r⌋ < (n : ℤ)) :
    ⌊r⌋.toNat < n := by
  rcases le_or_lt 0 ⌊r⌋ with h0 | h0
  · exact (Int.toNat_lt h0).mpr hf
  · rwa [Int.toNat_of_nonpos h0.le]

/-- The `x` tile index is in `[0, 2^z)` whenever the longitude is below
`180`. -/
theorem latLonToTileX_lt {lat lon : ℝ} {z : ℕ} (h : lon < 180) :
    (latLonToTile lat lon z).1 < 2 ^ z := by
  simp only [latLonToTile, uint32OfReal]
  have hr : (2:ℝ) ^ z * ((lon + 180) / 360) < ((2 ^ z : ℕ) : ℝ) := by
    push_cast
    calc (2:ℝ) ^ z * ((lon + 180) / 360) < (2:ℝ) ^ z * 1 := by
          apply mul_lt_mul_of_pos_left _ (by positivity)
          rw [div_lt_one (by norm_num)]
          linarith
      _ = (2:ℝ) ^ z := mul_one _
  have hf : ⌊(2:ℝ) ^ z * ((lon + 180) / 360)⌋ < ((2 ^ z : ℕ) : ℤ) :=
    Int.floor_lt.mpr (by exact_mod_cast hr)
  exact floorToNat_lt (pow_pos (by norm_num) z) hf

/-- The `y` tile index is in `[0, 2^z)` whenever the latitude's Mercator
ordinate is below the south edge of the world, i.e. `mercFrac lat < 1`
(true exactly for latitudes strictly above ≈ -85.051°). -/
theorem latLonToTileY_lt {lat : ℝ} (lon : ℝ) {z : ℕ} (h : mercFrac lat < 1) :
    (latLonToTile lat lon z).2 < 2 ^ z := by
  simp only [latLonToTile, uint32OfReal]
  have hrw : (2:ℝ) ^ z *
      (1 - Real.log (Real.tan (lat * Real.pi / 180) + 1 / Real.cos (lat * Real.pi / 180)) /
        Real.pi) / 2 = (2:ℝ) ^ z * mercFrac lat := by
    rw [mercFrac]
    ring
  have hr : (2:ℝ) ^ z * mercFrac lat < ((2 ^ z : ℕ) : ℝ) := by
    push_cast
    calc (2:ℝ) ^ z * mercFrac lat < (2:ℝ) ^ z * 1 :=
          mul_lt_mul_of_pos_left h (by positivity)
      _ = (2:ℝ) ^ z := mul_one _
  have hf : ⌊(2:ℝ) ^ z *
      (1 - Real.log (Real.tan (lat * Real.pi / 180) + 1 / Real.cos (lat * Real.pi / 180)) /
        Real.pi) / 2⌋ < ((2 ^ z : ℕ) : ℤ) := by
    rw [hrw]
    exact Int.floor_lt.mpr (by exact_mod_cast hr)
  exact floorToNat_lt (pow_pos (by norm_num) z) hf

/-- C3 (amended): every tile produced by the selector has nonnegative
indices (by construction), and `x < 2^z` and `y < 2^z` hold provided every
polygon's computed maximum longitude is strictly below `180` and its
computed minimum latitude stays strictly inside the Web-Mercator range
(`mercFrac < 1`, i.e. above ≈ -85.051°).  Without those provisos the
claim fails — see the counterexample: a vertex at longitude `180` yields a
tile with `x = 2^z`. -/
theorem getTilesForPolygons_range_amended (polys : List (List LatLng)) (mn mx : ℕ)
    (h : ∀ poly ∈ polys, (polyBBox poly).maxLon < 180 ∧
      mercFrac (polyBBox poly).minLat < 1) :
    ∀ t ∈ getTilesForPolygons polys mn mx, t.x < 2 ^ t.z ∧ t.y < 2 ^ t.z := by
  intro t ht
  rw [getTilesForPolygons] at ht
  rcases selector_fold_spec mn mx polys ⟨[], []⟩ with ⟨Δ, hfold, hsub, -, -⟩
  rw [hfold] at ht
  simp only at ht
  rw [List.nil_append] at ht
  have htc : t ∈ canonicalEnum polys mn mx := hsub.mem ht
  simp only [canonicalEnum, List.mem_flatMap] at htc
  obtain ⟨poly, hpoly, htp⟩ := htc
  rcases Classical.em (poly.length < 3) with hlen | hlen
  · rw [if_pos hlen] at htp
    simp at htp
  · rw [if_neg hlen] at htp
    obtain ⟨hx, hy⟩ := mem_polyCandidates htp
    obtain ⟨hlon, hlat⟩ := h poly hpoly
    exact ⟨lt_of_le_of_lt hx (latLonToTileX_lt hlon),
      lt_of_le_of_lt hy (latLonToTileY_lt _ hlat)⟩

/-- C3 amended witness: a small triangle away from the antimeridian and
the polar cap satisfies the provisos, and the theorem applies. -/
theorem getTilesForPolygons_range_amended_witness :
    (∀ poly ∈ [[(⟨0, 0⟩ : LatLng), ⟨0, 1⟩, ⟨1, 1⟩]],
      (polyBBox poly).maxLon < 180 ∧ mercFrac (polyBBox poly).minLat < 1) ∧
    ∀ t ∈ getTilesForPolygons [[(⟨0, 0⟩ : LatLng), ⟨0, 1⟩, ⟨1, 1⟩]] 0 1,
      t.x < 2 ^ t.z ∧ t.y < 2 ^ t.z := by
  have hbb : polyBBox [(⟨0, 0⟩ : LatLng), ⟨0, 1⟩, ⟨1, 1⟩] =
      ⟨0, 0, 1, 1⟩ := by
    simp only [polyBBox, List.foldl_cons, List.foldl_nil]
    congr 1 <;> norm_num [min_def, max_def]
  have hmf : mercFrac 0 < 1 := by
    rw [mercFrac]
    rw [show (0:ℝ) * Real.pi / 180 = 0 by ring]
    rw [Real.tan_zero, Real.cos_zero]
    norm_num
  have h : ∀ poly ∈ [[(⟨0, 0⟩ : LatLng), ⟨0, 1⟩, ⟨1, 1⟩]],
      (polyBBox poly).maxLon < 180 ∧ mercFrac (polyBBox poly).minLat < 1 := by
    intro poly hpoly
    rcases List.mem_singleton.mp hpoly with rfl
    rw [hbb]
    exact ⟨by norm_num, hmf⟩
  exact ⟨h, getTilesForPolygons_range_amended _ 0 1 h⟩

/-- North edge of the `y = 0` tile row is strictly above the equator. -/
theorem demo_north_pos : 0 < Real.arctan (Real.sinh Real.pi) * 180 / Real.pi := by
  apply div_pos (mul_pos ?_ (by norm_num)) Real.pi_pos
  rw [show (0:ℝ) = Real.arctan 0 by rw [Real.arctan_zero]]
  exact Real.arctan_strictMono (Real.sinh_pos_iff.mpr Real.pi_pos)

/-- South edge of the `y = 0` tile row at zoom `0` is strictly below the
equator. -/
theorem demo_south_neg : Real.arctan (Real.sinh (-Real.pi)) * 180 / Real.pi < 0 := by
  apply div_neg_of_neg_of_pos (mul_neg_of_neg_of_pos ?_ (by norm_num)) Real.pi_pos
  rw [show (0:ℝ) = Real.arctan 0 by rw [Real.arctan_zero]]
  exact Real.arctan_strictMono (Real.sinh_neg_iff.mpr (by linarith [Real.pi_pos]))

/-- Bounds of the zoom-0 world tile `(0, 0, 0)`. -/
theorem demo_bounds_000 : tileBounds ⟨0, 0, 0⟩ =
    ⟨Real.arctan (Real.sinh Real.pi) * 180 / Real.pi,
     Real.arctan (Real.sinh (-Real.pi)) * 180 / Real.pi, 180, -180⟩ := by
  simp only [tileBounds]
  congr 1
  · push_cast
    norm_num
  · push_cast
    rw [show Real.pi * (1 - 2 * (0 + 1) / 2 ^ (0:ℕ)) = -Real.pi by norm_num]
  · push_cast
    norm_num
  · push_cast
    norm_num

/-- Bounds of the out-of-range tile `(1, 0, 0)` produced at longitude
`180`. -/
theorem demo_bounds_100 : tileBounds ⟨1, 0, 0⟩ =
    ⟨Real.arctan (Real.sinh Real.pi) * 180 / Real.pi,
     Real.arctan (Real.sinh (-Real.pi)) * 180 / Real.pi, 540, 180⟩ := by
  simp only [tileBounds]
  congr 1
  · push_cast
    norm_num
  · push_cast
    rw [show Real.pi * (1 - 2 * (0 + 1) / 2 ^ (0:ℕ)) = -Real.pi by norm_num]
  · push_cast
    norm_num
  · push_cast
    norm_num

/-- Ray casting over the flat demo triangle (all vertices at latitude 0)
never toggles, whatever the query point. -/
theorem demo_polygonContains (pt : LatLng) :
    polygonContains [⟨0, 170⟩, ⟨0, 180⟩, ⟨0, 175⟩] pt = false := by
  simp [polygonContains, List.range_succ]

/-- Bounding box of the demo triangle. -/
theorem demo_bbox : polyBBox [⟨0, 170⟩, ⟨0, 180⟩, ⟨0, 175⟩] = ⟨0, 170, 0, 180⟩ := by
  simp only [polyBBox, List.foldl_cons, List.foldl_nil]
  congr 1 <;> norm_num [min_def, max_def]

/-- The Mercator `log` term vanishes at latitude 0. -/
theorem demo_log_zero :
    Real.log (Real.tan ((0:ℝ) * Real.pi / 180) + 1 / Real.cos ((0:ℝ) * Real.pi / 180)) = 0 := by
  rw [show (0:ℝ) * Real.pi / 180 = 0 by ring, Real.tan_zero, Real.cos_zero]
  norm_num

/-- Tile of the bbox corner `(lat 0, lon 170)` at zoom 0. -/
theorem demo_tile_170 : latLonToTile 0 170 0 = (0, 0) := by
  simp only [latLonToTile, uint32OfReal, pow_zero, one_mul]
  rw [demo_log_zero]
  rw [show ⌊((170:ℝ) + 180) / 360⌋ = 0 by rw [Int.floor_eq_iff]; norm_num]
  rw [show ⌊(1 - (0:ℝ) / Real.pi) / 2⌋ = 0 by
    rw [show (1 - (0:ℝ) / Real.pi) / 2 = 1 / 2 by ring]
    rw [Int.floor_eq_iff]; norm_num]
  rfl

/-- Tile of the bbox corner `(lat 0, lon 180)` at zoom 0: the `x` index
already equals `2^0 = 1`, outside the valid range. -/
theorem demo_tile_180 : latLonToTile 0 180 0 = (1, 0) := by
  simp only [latLonToTile, uint32OfReal, pow_zero, one_mul]
  rw [demo_log_zero]
  rw [show ⌊((180:ℝ) + 180) / 360⌋ = 1 by
    rw [show ((180:ℝ) + 180) / 360 = 1 by norm_num]
    norm_num]
  rw [show ⌊(1 - (0:ℝ) / Real.pi) / 2⌋ = 0 by
    rw [show (1 - (0:ℝ) / Real.pi) / 2 = 1 / 2 by ring]
    rw [Int.floor_eq_iff]; norm_num]
  rfl

/-- Candidate tiles of the demo triangle at zoom range `[0, 0]`: the two
tiles with `x = 0` and `x = 1`. -/
theorem demo_candidates :
    polyCandidates [⟨0, 170⟩, ⟨0, 180⟩, ⟨0, 175⟩] 0 0 = [⟨0, 0, 0⟩, ⟨1, 0, 0⟩] := by
  simp only [polyCandidates, demo_bbox]
  simp only [show List.range (0 + 1 - 0) = [0] from rfl, List.map_cons, List.map_nil,
    List.flatMap_cons, List.flatMap_nil]
  rw [show (0:ℕ) + 0 = 0 from rfl, demo_tile_170, demo_tile_180]
  simp only [show List.range (1 + 1 - 0) = [0, 1] from rfl,
    show List.range (0 + 1 - 0) = [0] from rfl, List.map_cons, List.map_nil,
    List.flatMap_cons, List.flatMap_nil]
  rfl

/-- The first candidate `(0, 0, 0)` is selected by the
polygon-inside-tile rule. -/
theorem demo_classify_000 :
    classifyAdd [⟨0, 170⟩, ⟨0, 180⟩, ⟨0, 175⟩] ⟨0, 0, 0⟩ ⟨[], []⟩ =
      ⟨[⟨0, 0, 0⟩], [⟨0, 0, 0⟩]⟩ := by
  rw [classifyAdd, if_neg (by simp)]
  simp only [demo_bounds_000]
  rw [if_neg (by simp [demo_polygonContains])]
  rw [if_pos ?_]
  · simp
  · simp only [List.all_cons, List.all_nil, tileContains]
    simp only [Bool.and_true]
    rw [show (decide ((0:ℝ) ≤ Real.arctan (Real.sinh Real.pi) * 180 / Real.pi ∧
        Real.arctan (Real.sinh (-Real.pi)) * 180 / Real.pi ≤ 0 ∧
        (-180:ℝ) ≤ 170 ∧ (170:ℝ) ≤ 180)) = true from by
      simp only [decide_eq_true_eq]
      refine ⟨demo_north_pos.le, demo_south_neg.le, by norm_num, by norm_num⟩]
    rw [show (decide ((0:ℝ) ≤ Real.arctan (Real.sinh Real.pi) * 180 / Real.pi ∧
        Real.arctan (Real.sinh (-Real.pi)) * 180 / Real.pi ≤ 0 ∧
        (-180:ℝ) ≤ 180 ∧ (180:ℝ) ≤ 180)) = true from by
      simp only [decide_eq_true_eq]
      refine ⟨demo_north_pos.le, demo_south_neg.le, by norm_num, by norm_num⟩]
    rw [show (decide ((0:ℝ) ≤ Real.arctan (Real.sinh Real.pi) * 180 / Real.pi ∧
        Real.arctan (Real.sinh (-Real.pi)) * 180 / Real.pi ≤ 0 ∧
        (-180:ℝ) ≤ 175 ∧ (175:ℝ) ≤ 180)) = true from by
      simp only [decide_eq_true_eq]
      refine ⟨demo_north_pos.le, demo_south_neg.le, by norm_num, by norm_num⟩]
    rfl

/-- The second candidate `(1, 0, 0)` — with `x = 2^0` out of range — is
selected by the boundary-intersection rule: the vertex at longitude `180`
lies inside the tile's bounds. -/
theorem demo_classify_100 :
    classifyAdd [⟨0, 170⟩, ⟨0, 180⟩, ⟨0, 175⟩] ⟨1, 0, 0⟩ ⟨[⟨0, 0, 0⟩], [⟨0, 0, 0⟩]⟩ =
      ⟨[⟨0, 0, 0⟩, ⟨1, 0, 0⟩], [⟨0, 0, 0⟩, ⟨1, 0, 0⟩]⟩ := by
  rw [classifyAdd, if_neg (by simp)]
  simp only [demo_bounds_100]
  rw [if_neg (by simp [demo_polygonContains])]
  rw [if_neg ?_, if_pos ?_]
  · simp
  · rw [polygonIntersects]
    simp only [List.any_cons, tileContains]
    rw [show (decide ((0:ℝ) ≤ Real.arctan (Real.sinh Real.pi) * 180 / Real.pi ∧
        Real.arctan (Real.sinh (-Real.pi)) * 180 / Real.pi ≤ 0 ∧
        (180:ℝ) ≤ 180 ∧ (180:ℝ) ≤ 540)) = true from by
      simp only [decide_eq_true_eq]
      refine ⟨demo_north_pos.le, demo_south_neg.le, by norm_num, by norm_num⟩]
    simp
  · simp only [List.all_cons, tileContains]
    rw [show (decide ((0:ℝ) ≤ Real.arctan (Real.sinh Real.pi) * 180 / Real.pi ∧
        Real.arctan (Real.sinh (-Real.pi)) * 180 / Real.pi ≤ 0 ∧
        (180:ℝ) ≤ 170 ∧ (170:ℝ) ≤ 540)) = false from by
      simp only [decide_eq_false_iff_not]
      intro hcon
      have := hcon.2.2.1
      norm_num at this]
    simp

/-- C3 counterexample: for the flat triangle with a vertex at longitude
`180` (within the claim's premises: zoom range `[0, 0]` inside `[0, 19]`),
the selector returns the tile `(x, y, z) = (1, 0, 0)` with `x = 1 = 2^0`,
violating `x < 2^z`. -/
theorem getTilesForPolygons_range_counterexample :
    (⟨1, 0, 0⟩ : Tile) ∈ getTilesForPolygons [[⟨0, 170⟩, ⟨0, 180⟩, ⟨0, 175⟩]] 0 0 ∧
    ¬ ((⟨1, 0, 0⟩ : Tile).x < 2 ^ (⟨1, 0, 0⟩ : Tile).z) := by
  constructor
  · rw [getTilesForPolygons, List.foldl_cons, List.foldl_nil,
      if_neg (by norm_num), demo_candidates, List.foldl_cons, List.foldl_cons,
      List.foldl_nil, demo_classify_000, demo_classify_100]
    simp
  · norm_num

end MapTiles
